import Mathlib

/-!
A shallow embedding, in Lean 4, of the core of the `app_animated_window_borders`
repository (file `src/model.py`): the color codec, the rule matcher, the color
resolver, the animation engine state machine, the process-name cache and the
differential DWM writer.  Python strings are modelled as `List Char`, Python's
unbounded `int` as `Int` (or `Nat` where the source value is provably
non-negative), and Python `float` as `ℚ` with exact arithmetic.  Python's
`None`-able values are modelled with `Option`; Python's `or`-defaulting on
falsy values (empty string, `None`, numeric zero) is modelled by the `pyOr*`
helpers below.
-/

set_option linter.unusedVariables false

namespace AWB

-- ===== Definitions: the shallow embedding of src/model.py and claim-side notions =====

/-- Python `str`, modelled as a list of characters. -/
abbrev PyStr := List Char

/-- Python `x or d` for an optional string `x`: `None` and the empty string are
falsy and yield `d`. -/
def pyOrStr : Option PyStr → PyStr → PyStr
  | some s, d => if s = [] then d else s
  | none, d => d

/-- Python `x or d` for an optional number `x`: `None` and `0` are falsy. -/
def pyOrQ : Option ℚ → ℚ → ℚ
  | some q, d => if q = 0 then d else q
  | none, d => d

/-- Python whitespace test for the characters `str.strip` removes (ASCII part,
which covers every input the development quantifies over). -/
def isSpaceChar (c : Char) : Bool :=
  c = ' ' || c = '\t' || c = '\n' || c = '\x0d' || c = '\x0b' || c = '\x0c'

/-- Python `str.strip()`: drop whitespace from both ends. -/
def strip (s : PyStr) : PyStr :=
  ((s.dropWhile isSpaceChar).reverse.dropWhile isSpaceChar).reverse

/-- Python `str.lower()` (ASCII case mapping). -/
def lower (s : PyStr) : PyStr := s.map Char.toLower

/-- Python `str.upper()` (ASCII case mapping). -/
def upper (s : PyStr) : PyStr := s.map Char.toUpper

/-- Python `int()` truncation of a real number toward zero. -/
def pyInt (q : ℚ) : Int := if 0 ≤ q then ⌊q⌋ else -⌊-q⌋

def DWMWA_COLOR_DEFAULT : Nat := 0xFFFFFFFF

def DWMWA_COLOR_NONE : Nat := 0xFFFFFFFE

def COLOR_INVALID : Nat := 0x000000FF

/-- The sixteen lowercase hexadecimal digits (`"0123456789abcdef"` in the
source's validity check). -/
def hexDigits : PyStr := "0123456789abcdef".toList

/-- Value of one (lowercase) hexadecimal digit, as `int(·, 16)` assigns it. -/
def hexVal (c : Char) : Nat :=
  if c ≤ '9' then c.toNat - '0'.toNat else c.toNat - 'a'.toNat + 10

/-- Python `int(s, 16)` on an already validated lowercase hex string. -/
def parseHex (s : PyStr) : Nat := s.foldl (fun acc c => acc * 16 + hexVal c) 0

/-- Python `s.startswith("#")`. -/
def startsWithHash : PyStr → Bool
  | c :: _ => c = '#'
  | [] => false

/-- `hex_to_colorref` (model.py lines 42-56): convert `"#RRGGBB"`, `"default"`
or `"none"` into a Windows COLORREF (BGR byte order). -/
def hex_to_colorref (value : PyStr) : Nat :=
  let v := lower (strip value)
  if v = "default".toList then DWMWA_COLOR_DEFAULT
  else if v = "none".toList then DWMWA_COLOR_NONE
  else
    let v := if startsWithHash v then v.drop 1 else v
    if v.length == 6 && v.all (fun c => hexDigits.contains c) then
      parseHex ((v.drop 4).take 2 ++ ((v.drop 2).take 2 ++ v.take 2))
    else COLOR_INVALID

/-- The sixteen uppercase hexadecimal digit characters used by `f"{r:02X}"`. -/
def hexDigitsUpper : PyStr := "0123456789ABCDEF".toList

/-- One digit of Python's uppercase hexadecimal formatting. -/
def hexDigitChar (n : Nat) : Char := hexDigitsUpper.getD n 'X'

/-- Python `f"{n:02X}"` for a byte value `n < 256`. -/
def byteToHexUpper (n : Nat) : PyStr := [hexDigitChar (n / 16), hexDigitChar (n % 16)]

/-- `colorref_to_hex` (model.py lines 58-65): convert a COLORREF (BGR) back
into a `"#RRGGBB"` string; the three sentinels all collapse to `"#000000"`. -/
def colorref_to_hex (colorref : Nat) : PyStr :=
  if colorref = DWMWA_COLOR_DEFAULT ∨ colorref = DWMWA_COLOR_NONE ∨ colorref = COLOR_INVALID then
    "#000000".toList
  else
    let b := (colorref >>> 16) &&& 0xFF
    let g := (colorref >>> 8) &&& 0xFF
    let r := colorref &&& 0xFF
    '#' :: (byteToHexUpper r ++ (byteToHexUpper g ++ byteToHexUpper b))

/-- `normalize_hex` (model.py lines 67-78): normalize arbitrary color input to
`"#RRGGBB"`, or pass through `"default"` / `"none"` lowercased. -/
def normalize_hex (s : PyStr) : PyStr :=
  let s := strip s
  if s = [] then "#000000".toList
  else if lower s = "default".toList ∨ lower s = "none".toList then lower s
  else
    let s := if startsWithHash s then s else '#' :: s
    if s.length ≠ 7 then "#000000".toList else upper s

/-- A rule's `"animation"` sub-dict: `{"type": ..., "speed": ...}`.  `none`
fields model keys that are absent or bound to Python `None`/falsy values. -/
structure AnimSpec where
  type_ : Option PyStr
  speed : Option ℚ
deriving DecidableEq

/-- A window rule dict.  Each field models `rule.get(key)`; `none` stands for
an absent key or a `None` value.  An absent/falsy `"animation"` dict is
modelled by `animation = none`. -/
structure Rule where
  match_ : Option PyStr
  contains : Option PyStr
  active_border_color : Option PyStr
  inactive_border_color : Option PyStr
  animation : Option AnimSpec
deriving DecidableEq

/-- The part of the config dict the rule matcher reads:
`config.get("window_rules", []) or []`. -/
structure AppConfig where
  window_rules : List Rule
deriving DecidableEq

/-- The `defaults` dict handed to `resolve_colors`
(`{"animation": global_anim_defaults}` in `apply_colors_once`). -/
structure GlobalDefaults where
  animation : Option AnimSpec
deriving DecidableEq

/-- `_score_rule` (model.py lines 396-403): Process scores 3, everything else 0. -/
def score_rule (rule : Rule) : Int :=
  let m := lower (pyOrStr rule.match_ [])
  if m = "process".toList then 3
  else if m = "global".toList then 0
  else 0

/-- `_matches` (model.py lines 405-413): Global matches unconditionally, a
Process rule matches iff its lowercased `contains` is a substring (Python
`in`) of the lowercased process name. -/
def matchesRule (rule : Rule) (title class_name process_name : PyStr) : Bool :=
  let m := lower (pyOrStr rule.match_ [])
  let contains := lower (pyOrStr rule.contains [])
  if m = "global".toList then true
  else if m = "process".toList then decide (contains <:+: lower process_name)
  else false

/-- The running-best comparison loop of `pick_rule` (model.py lines 418-427):
`best` and `best_score` are the loop accumulators; a matching rule replaces
the running best exactly when its `(score, len(contains))` tuple is strictly
greater (Python tuple comparison, i.e. lexicographic). -/
def pick_rule_loop (title class_name process_name : PyStr) :
    List Rule → Option Rule → Int → Option Rule
  | [], best, _ => best
  | r :: rs, best, best_score =>
    if matchesRule r title class_name process_name then
      let sc := score_rule r
      let contains_len : Int := (pyOrStr r.contains []).length
      let best_len : Int := (pyOrStr (best.bind Rule.contains) []).length
      if sc > best_score ∨ (sc = best_score ∧ contains_len > best_len) then
        pick_rule_loop title class_name process_name rs (some r) sc
      else
        pick_rule_loop title class_name process_name rs best best_score
    else
      pick_rule_loop title class_name process_name rs best best_score

/-- `pick_rule` (model.py lines 415-428): scan all configured rules, return
the best match (`None` when nothing matches). -/
def pick_rule (config : AppConfig) (title class_name process_name : PyStr) : Option Rule :=
  pick_rule_loop title class_name process_name config.window_rules none (-1)

/-- The literal fallback animation dict `{"type": "none", "speed": 1.0}`. -/
def noneAnim : AnimSpec := { type_ := some ("none".toList), speed := some 1 }

/-- `resolve_colors` (model.py lines 431-448).  Result: `(active, inactive,
(animation type, animation speed))`; the animated branch returns `(-1, -1)`
for the color pair, exactly as the source does. -/
def resolve_colors (rule : Option Rule) (defaults : GlobalDefaults) :
    Int × Int × (PyStr × ℚ) :=
  let rule_anim :=
    match (match rule with | some r => r.animation | none => none) with
    | some a => a
    | none => match defaults.animation with
              | some a => a
              | none => noneAnim
  let atype := lower (pyOrStr rule_anim.type_ ("none".toList))
  let aspeed := pyOrQ rule_anim.speed 1
  if atype ≠ "none".toList then (-1, -1, (atype, aspeed))
  else
    let active := hex_to_colorref (pyOrStr (rule.bind Rule.active_border_color) ("default".toList))
    let inactive := hex_to_colorref (pyOrStr (rule.bind Rule.inactive_border_color) ("default".toList))
    let active := if active = COLOR_INVALID then hex_to_colorref ("default".toList) else active
    let inactive := if inactive = COLOR_INVALID then hex_to_colorref ("default".toList) else inactive
    ((active : Int), (inactive : Int), ("none".toList, 1))

/-- One entry of `Animation._state`: `{"time": float, "current": int,
"last_pass": int}` (model.py line 167). -/
structure AnimState where
  time : ℚ
  current : Nat
  last_pass : Int
deriving DecidableEq

/-- The fresh state created by `_get_state` (model.py line 173). -/
def initAnimState : AnimState := { time := 0, current := 0xFF0000, last_pass := -1 }

/-- `Animation._state`, the key-to-state dict, as an association list. -/
abbrev AnimTable := List (PyStr × AnimState)

/-- Python dict assignment `d[k] = v`: replace the existing binding or append. -/
def aset {α β : Type} [BEq α] : List (α × β) → α → β → List (α × β)
  | [], k, v => [(k, v)]
  | (k', v') :: t, k, v => if k' == k then (k, v) :: t else (k', v') :: aset t k v

/-- `Animation._get_state` (model.py lines 169-175): look the key up, creating
a fresh state on first use.  Returns the state together with the (possibly
extended) table. -/
def get_state (tbl : AnimTable) (key : PyStr) : AnimState × AnimTable :=
  match List.lookup key tbl with
  | some s => (s, tbl)
  | none => (initAnimState, aset tbl key initAnimState)

/-- `Animation._advance` (model.py lines 177-182): advance the time at most
once per pass; `max(0.1, speed) * scale` is added only when the stored
`last_pass` differs from the incoming `pass_id`. -/
def advance (st : AnimState) (speed scale : ℚ) (pass_id : Int) : AnimState :=
  if st.last_pass ≠ pass_id then
    { st with time := st.time + max (0.1 : ℚ) speed * scale, last_pass := pass_id }
  else st

/-- `Animation._lerp_rgb` (model.py lines 184-195): channel-wise linear
interpolation, each channel truncated to an integer with Python `int()`. -/
def lerp_rgb (a b : Option Nat) (t : ℚ) : Nat :=
  let a := a.getD 0xFF0000
  let b := b.getD 0x0000FF
  let ar : Int := ((a >>> 16) &&& 0xFF : Nat)
  let ag : Int := ((a >>> 8) &&& 0xFF : Nat)
  let ab' : Int := (a &&& 0xFF : Nat)
  let br : Int := ((b >>> 16) &&& 0xFF : Nat)
  let bg : Int := ((b >>> 8) &&& 0xFF : Nat)
  let bb : Int := (b &&& 0xFF : Nat)
  let r := pyInt (ar + (br - ar) * t)
  let g := pyInt (ag + (bg - ag) * t)
  let b := pyInt (ab' + (bb - ab') * t)
  (r.toNat <<< 16) ||| (g.toNat <<< 8) ||| b.toNat

/-- The per-call RGB stepping block of `Animation._rainbow` (model.py lines
229-247): walk the hue hexagon by stepping one channel of the stored current
color.  Channels stay in `[0, 255]`, so the `Int.toNat` repacking is exact. -/
def rainbowNext (current : Nat) (step : Int) : Nat :=
  let r : Int := ((current >>> 16) &&& 0xFF : Nat)
  let g : Int := ((current >>> 8) &&& 0xFF : Nat)
  let b : Int := (current &&& 0xFF : Nat)
  let rgb :=
    if r = 0xFF ∧ g < 0xFF ∧ b = 0x00 then (r, min 0xFF (g + step), b)
    else if g = 0xFF ∧ r > 0x00 ∧ b = 0x00 then (max 0x00 (r - step), g, b)
    else if g = 0xFF ∧ b < 0xFF ∧ r = 0x00 then (r, g, min 0xFF (b + step))
    else if b = 0xFF ∧ g > 0x00 ∧ r = 0x00 then (r, max 0x00 (g - step), b)
    else if b = 0xFF ∧ r < 0xFF ∧ g = 0x00 then (min 0xFF (r + step), g, b)
    else if r = 0xFF ∧ b > 0x00 ∧ g = 0x00 then (r, g, max 0x00 (b - step))
    else ((0xFF : Int), (0x00 : Int), (0x00 : Int))
  (rgb.1.toNat <<< 16) ||| (rgb.2.1.toNat <<< 8) ||| rgb.2.2.toNat

/-- `Animation._rainbow` (model.py lines 225-248).  Note the color stepping
happens on every call; only the (otherwise unused) `time` field is gated by
`pass_id` through `_advance`. -/
def rainbow (tbl : AnimTable) (key : PyStr) (speed : ℚ) (pass_id : Int) :
    AnimTable × Nat :=
  let p := get_state tbl key
  let st := advance p.1 speed 1 pass_id
  let step : Int := max 1 (pyInt (speed * 5))
  let cur : Nat := rainbowNext st.current step
  (aset p.2 key { st with current := cur }, cur)

/-- `Animation._pulse` (model.py lines 250-262).  `sinQ` is the model of
`math.sin` on the exact-rational model of `float`. -/
def pulse (sinQ : ℚ → ℚ) (tbl : AnimTable) (key : PyStr) (speed : ℚ)
    (a b : Option Nat) (pass_id : Int) : AnimTable × Nat :=
  let p := get_state tbl key
  let st := advance p.1 speed (0.05 : ℚ) pass_id
  let t := (sinQ st.time + 1) / 2
  let cur := lerp_rgb a b t
  (aset p.2 key { st with current := cur }, cur)

/-- `Animation._fade` (model.py lines 264-276): as `_pulse` with time scale 0.02. -/
def fade (sinQ : ℚ → ℚ) (tbl : AnimTable) (key : PyStr) (speed : ℚ)
    (a b : Option Nat) (pass_id : Int) : AnimTable × Nat :=
  let p := get_state tbl key
  let st := advance p.1 speed (0.02 : ℚ) pass_id
  let t := (sinQ st.time + 1) / 2
  let cur := lerp_rgb a b t
  (aset p.2 key { st with current := cur }, cur)

/-- Python `x % 2.0` on floats (mathematical modulus, non-negative result). -/
def pyMod (x m : ℚ) : ℚ := x - m * ⌊x / m⌋

/-- `Animation._triangle_wave` (model.py lines 278-281). -/
def triangle_wave (x : ℚ) : ℚ := 1 - |pyMod x 2 - 1|

/-- `Animation._lighten` (model.py lines 283-286). -/
def lighten (rgb : Nat) (amt : ℚ) : Nat :=
  lerp_rgb (some rgb) (some 0xFFFFFF) (max 0 (min 1 amt))

/-- `Animation._darken` (model.py lines 288-291). -/
def darken (rgb : Nat) (amt : ℚ) : Nat :=
  lerp_rgb (some rgb) (some 0x000000) (max 0 (min 1 amt))

/-- `Animation._breath` (model.py lines 293-300). -/
def breath (sinQ : ℚ → ℚ) (tbl : AnimTable) (key : PyStr) (speed : ℚ)
    (a : Option Nat) (pass_id : Int) : AnimTable × Nat :=
  let p := get_state tbl key
  let st := advance p.1 speed (0.03 : ℚ) pass_id
  let amp := (0.35 : ℚ) * ((0.5 : ℚ) + (0.5 : ℚ) * sinQ st.time)
  let base := a.getD 0xFF0000
  let cur := lighten base amp
  (aset p.2 key { st with current := cur }, cur)

/-- `Animation._tri` (model.py lines 302-314). -/
def tri (tbl : AnimTable) (key : PyStr) (speed : ℚ)
    (a b : Option Nat) (pass_id : Int) : AnimTable × Nat :=
  let p := get_state tbl key
  let st := advance p.1 speed (0.06 : ℚ) pass_id
  let t := triangle_wave st.time
  let cur := lerp_rgb a b t
  (aset p.2 key { st with current := cur }, cur)

/-- `Animation._sparkle` (model.py lines 316-327). -/
def sparkle (sinQ : ℚ → ℚ) (tbl : AnimTable) (key : PyStr) (speed : ℚ)
    (a : Option Nat) (pass_id : Int) : AnimTable × Nat :=
  let p := get_state tbl key
  let st := advance p.1 speed (0.05 : ℚ) pass_id
  let base := a.getD 0xFF0000
  let w1 := (0.5 : ℚ) + (0.5 : ℚ) * sinQ (st.time * (1.7 : ℚ))
  let w2 := (0.5 : ℚ) + (0.5 : ℚ) * sinQ (st.time * (2.3 : ℚ) + (1.234 : ℚ))
  let jitter := w1 * (0.6 : ℚ) + w2 * (0.4 : ℚ)
  let up := lighten base ((0.15 : ℚ) * jitter)
  let down := darken base ((0.15 : ℚ) * (1 - jitter))
  let cur := lerp_rgb (some down) (some up) (0.5 : ℚ)
  (aset p.2 key { st with current := cur }, cur)

/-- Python `round` (banker's rounding: ties go to the even integer), used by
`_steps`. -/
def pyRound (q : ℚ) : Int :=
  let f := ⌊q⌋
  if q - f < 1 / 2 then f
  else if q - f > 1 / 2 then f + 1
  else if 2 ∣ f then f else f + 1

/-- `Animation._steps` (model.py lines 329-344), with the source's fixed
`steps=3` quantization. -/
def steps (sinQ : ℚ → ℚ) (tbl : AnimTable) (key : PyStr) (speed : ℚ)
    (a b : Option Nat) (stepsN : Int) (pass_id : Int) : AnimTable × Nat :=
  let stepsN := max 2 stepsN
  let p := get_state tbl key
  let st := advance p.1 speed (0.04 : ℚ) pass_id
  let t := (sinQ st.time + 1) * (0.5 : ℚ)
  let q := (pyRound (t * ((stepsN : ℚ) - 1)) : ℚ) / ((stepsN : ℚ) - 1)
  let cur := lerp_rgb a b q
  (aset p.2 key { st with current := cur }, cur)

/-- `Animation.color_for` (model.py lines 197-223): dispatch on the animation
type string; unknown types (and `"none"`) produce no color.  `sinQ` models
`math.sin` for the sine-based kinds. -/
def color_for (sinQ : ℚ → ℚ) (tbl : AnimTable) (key : PyStr) (anim_type : PyStr)
    (speed : ℚ) (start_rgb end_rgb : Option Nat) (pass_id : Int) :
    AnimTable × Option Nat :=
  let t := lower (pyOrStr (some anim_type) ("none".toList))
  if t = "none".toList then (tbl, none)
  else if t = "rainbow".toList then
    let r := rainbow tbl key speed pass_id; (r.1, some r.2)
  else if t = "pulse".toList then
    let r := pulse sinQ tbl key speed start_rgb end_rgb pass_id; (r.1, some r.2)
  else if t = "fade".toList then
    let r := fade sinQ tbl key speed start_rgb end_rgb pass_id; (r.1, some r.2)
  else if t = "breath".toList then
    let r := breath sinQ tbl key speed start_rgb pass_id; (r.1, some r.2)
  else if t = "tri".toList then
    let r := tri tbl key speed start_rgb end_rgb pass_id; (r.1, some r.2)
  else if t = "sparkle".toList then
    let r := sparkle sinQ tbl key speed start_rgb pass_id; (r.1, some r.2)
  else if t = "steps".toList then
    let r := steps sinQ tbl key speed start_rgb end_rgb 3 pass_id; (r.1, some r.2)
  else (tbl, none)

/-- The module-level dicts `_pid_name_cache` and `_pid_last_seen`
(model.py lines 349-350). -/
structure PidCache where
  pid_name_cache : List (Int × PyStr)
  pid_last_seen : List (Int × ℚ)
deriving DecidableEq

/-- `_gc_pid_cache` (model.py lines 353-359): drop from both dicts every pid
whose last-seen time is more than `max_age` older than `now`. -/
def gc_pid_cache (st : PidCache) (now : ℚ) (max_age : ℚ) : PidCache :=
  let stale := (st.pid_last_seen.filter (fun e => decide (now - e.2 > max_age))).map Prod.fst
  { pid_name_cache := st.pid_name_cache.filter (fun e => !(stale.contains e.1))
    pid_last_seen := st.pid_last_seen.filter (fun e => !(stale.contains e.1)) }

/-- `get_process_name_fast` (model.py lines 378-387): return the cached name
when present (refreshing the last-seen stamp), otherwise resolve and cache.
`resolved` models the value of `_query_process_name_native(pid) or ""` and
`now` models `time.time()`.  Note: no eviction happens on this path. -/
def get_process_name_fast (st : PidCache) (pid : Int) (resolved : PyStr) (now : ℚ) :
    PidCache × PyStr :=
  match List.lookup pid st.pid_name_cache with
  | some name => ({ st with pid_last_seen := aset st.pid_last_seen pid now }, name)
  | none =>
      ({ pid_name_cache := aset st.pid_name_cache pid resolved
         pid_last_seen := aset st.pid_last_seen pid now }, resolved)

/-- The `_last_colors` dict (hwnd to COLORREF, model.py line 351) together
with the log of invocations of the native `DwmSetWindowAttribute` primitive
(each entry is the `(hwnd, DWORD(color))` pair actually passed to it). -/
structure DwmState where
  last_colors : List (Int × Int)
  writes : List (Int × Int)
deriving DecidableEq

/-- The sentinel test of `set_dwm_border_color` (model.py line 453). -/
def isSentinel (color : Int) : Prop :=
  color = (DWMWA_COLOR_DEFAULT : Nat) ∨ color = (DWMWA_COLOR_NONE : Nat) ∨
    color = (COLOR_INVALID : Nat)

instance (color : Int) : Decidable (isSentinel color) := by
  unfold isSentinel; infer_instance

/-- `set_dwm_border_color` (model.py lines 451-466): no-op on sentinels, no-op
when the color equals the last value recorded for the handle; otherwise the
native primitive is invoked with `DWORD(color & 0xFFFFFFFF)` (modelled as
`color mod 2^32`) and — only if the native call returns without raising
(`ok = true`) — the new color is recorded.  `ok = false` models
`_DwmSetWindowAttribute` raising, which the source swallows. -/
def set_dwm_border_color (st : DwmState) (hwnd color : Int) (ok : Bool) : DwmState :=
  if isSentinel color then st
  else if List.lookup hwnd st.last_colors = some color then st
  else
    let written := Int.emod color 4294967296
    if ok then
      { last_colors := aset st.last_colors hwnd color
        writes := st.writes ++ [(hwnd, written)] }
    else
      { st with writes := st.writes ++ [(hwnd, written)] }

/-- The 22 characters that count as hexadecimal digits in the claim (Python
lowercases the input before validating against `"0123456789abcdef"`). -/
def hexCharsCI : List Char := "0123456789abcdefABCDEF".toList

/-- The Python comparison tuple `(score, len(contains))` of a rule. -/
def ruleKey (r : Rule) : Int × Int :=
  (score_rule r, ((pyOrStr r.contains []).length : Int))

/-- Strict lexicographic greater-than on comparison tuples — exactly Python's
`(sc, contains_len) > (best_score, best_len)`. -/
def keyGt (k1 k2 : Int × Int) : Prop :=
  k1.1 > k2.1 ∨ (k1.1 = k2.1 ∧ k1.2 > k2.2)

instance (k1 k2 : Int × Int) : Decidable (keyGt k1 k2) := by
  unfold keyGt; infer_instance

/-- Reference recursion: the earliest rule achieving the maximal comparison
tuple among the matching rules (a later rule displaces it only when strictly
greater). -/
def firstBest (title class_name process_name : PyStr) : List Rule → Option Rule
  | [] => none
  | r :: rs =>
    if matchesRule r title class_name process_name then
      match firstBest title class_name process_name rs with
      | none => some r
      | some b => if keyGt (ruleKey b) (ruleKey r) then some b else some r
    else firstBest title class_name process_name rs

/-- A rule of Process kind that matches the window. -/
def isProcessMatch (r : Rule) (title class_name process_name : PyStr) : Bool :=
  (lower (pyOrStr r.match_ []) == "process".toList)
    && matchesRule r title class_name process_name

/-- A sample configuration: the Global rule plus two Process rules whose
`contains` strings (`"code"` and `"code.exe"`) both match a `code.exe`
window. -/
def sampleConfig : AppConfig :=
  { window_rules :=
      [{ match_ := some ("Global".toList), contains := some []
         active_border_color := some ("#c6a0f6".toList)
         inactive_border_color := some ("#ffffff".toList), animation := none },
       { match_ := some ("Process".toList), contains := some ("code".toList)
         active_border_color := none, inactive_border_color := none, animation := none },
       { match_ := some ("Process".toList), contains := some ("code.exe".toList)
         active_border_color := none, inactive_border_color := none, animation := none }] }

-- ===== Theorems: helper lemmas and the claim results =====

lemma step_of_speed_one : max (1 : Int) (pyInt ((1 : ℚ) * 5)) = 5 := by
  norm_num [pyInt]

lemma advance_current (st : AnimState) (speed scale : ℚ) (pass_id : Int) :
    (advance st speed scale pass_id).current = st.current := by
  unfold advance; split <;> rfl

lemma lookup_aset_self {α β : Type} [BEq α] [LawfulBEq α]
    (l : List (α × β)) (k : α) (v : β) :
    List.lookup k (aset l k v) = some v := by
  induction l with
  | nil => simp [aset, List.lookup]
  | cons h t ih =>
      by_cases hk : h.1 = k
      · simp [aset, hk, List.lookup]
      · have hkb : (k == h.1) = false := beq_eq_false_iff_ne.mpr (Ne.symm hk)
        simp only [aset]
        rw [if_neg (by simp [hk])]
        simp [List.lookup, hkb, ih]

lemma rainbow_snd (tbl : AnimTable) (key : PyStr) (speed : ℚ) (pass_id : Int) :
    (rainbow tbl key speed pass_id).2
      = rainbowNext (get_state tbl key).1.current (max 1 (pyInt (speed * 5))) := by
  simp [rainbow, advance_current]

lemma rainbow_fst_current (tbl : AnimTable) (key : PyStr) (speed : ℚ) (pass_id : Int) :
    (get_state (rainbow tbl key speed pass_id).1 key).1.current
      = rainbowNext (get_state tbl key).1.current (max 1 (pyInt (speed * 5))) := by
  simp [rainbow, get_state, lookup_aset_self, advance_current]

/-- The empty string is a substring of every string (Python `"" in s`). -/
lemma empty_substring {α : Type} (l : List α) : [] <:+: l := ⟨[], l, by simp⟩

/-- A sentinel test evaluates by cases on the three sentinel values. -/
lemma set_dwm_sentinel (st : DwmState) (hwnd c : Int) (ok : Bool)
    (hs : isSentinel c) : set_dwm_border_color st hwnd c ok = st := by
  unfold set_dwm_border_color
  rw [if_pos hs]

/-- A repeated color is skipped by the differential writer. -/
lemma set_dwm_same (st : DwmState) (hwnd c : Int) (ok : Bool)
    (hns : ¬ isSentinel c) (hsame : List.lookup hwnd st.last_colors = some c) :
    set_dwm_border_color st hwnd c ok = st := by
  unfold set_dwm_border_color
  rw [if_neg hns, if_pos hsame]

/-- A fresh non-sentinel color reaches the native primitive; the color is
recorded only when the native call succeeds. -/
lemma set_dwm_new (st : DwmState) (hwnd c : Int) (ok : Bool)
    (hns : ¬ isSentinel c) (hnew : List.lookup hwnd st.last_colors ≠ some c) :
    set_dwm_border_color st hwnd c ok =
      if ok then
        { last_colors := aset st.last_colors hwnd c
          writes := st.writes ++ [(hwnd, Int.emod c 4294967296)] }
      else { st with writes := st.writes ++ [(hwnd, Int.emod c 4294967296)] } := by
  unfold set_dwm_border_color
  rw [if_neg hns, if_neg hnew]

/-- C2, counterexample: the claim says a Process rule with empty `contains`
matches no window, but `_matches` returns `True` for it (the empty string is
a Python substring of every string): here a Process rule with empty
`contains` matches a window whose process name is `"code.exe"`. -/
theorem C2_counterexample :
    matchesRule
      { match_ := some ("Process".toList), contains := some []
        active_border_color := none, inactive_border_color := none
        animation := none }
      ("t".toList) ("c".toList) ("code.exe".toList) = true := by decide

/-- C2, amended: a rule of kind Process whose `contains` field is empty
matches every window, whatever its title, class name and process name. -/
theorem C2_amended (r : Rule) (title class_name process_name : PyStr)
    (hm : lower (pyOrStr r.match_ []) = "process".toList)
    (hc : lower (pyOrStr r.contains []) = []) :
    matchesRule r title class_name process_name = true := by
  unfold matchesRule
  rw [hm, hc, if_neg (by decide), if_pos rfl]
  exact decide_eq_true (empty_substring _)

/-- C2, witness: the amended statement at a concrete rule and window. -/
theorem C2_witness :
    matchesRule
      { match_ := some ("process".toList), contains := none
        active_border_color := none, inactive_border_color := none
        animation := none }
      ("a".toList) ("b".toList) ("notepad.exe".toList) = true :=
  C2_amended _ _ _ _ (by decide) (by decide)

/-- C4, counterexample: the claim quantifies over every animation state, but
on a state whose stored `last_pass` already equals the incoming `pass_id` the
first `_advance` call leaves `elapsed_time` unchanged instead of adding
`max(0.1, speed) * scale` (which is nonzero here). -/
theorem C4_counterexample :
    advance { time := 0, current := 0xFF0000, last_pass := 5 } 1 1 5
        = { time := 0, current := 0xFF0000, last_pass := 5 }
      ∧ max (0.1 : ℚ) 1 * 1 ≠ 0 := by
  refine ⟨by unfold advance; rw [if_neg (by decide)], by norm_num⟩

/-- C4, amended: on a state whose `last_pass` differs from `pass_id`, calling
`_advance` N times (N ≥ 1) with that same `pass_id` adds
`max(0.1, speed) * scale` to `elapsed_time` exactly once — the first call
adds it and sets `last_pass`, and every further call is a no-op, so the
N-fold iterate equals the single-call result. -/
theorem C4_amended (st : AnimState) (speed scale : ℚ) (pass_id : Int)
    (h : st.last_pass ≠ pass_id) (N : Nat) (hN : 1 ≤ N) :
    (fun s => advance s speed scale pass_id)^[N] st
      = { st with time := st.time + max (0.1 : ℚ) speed * scale, last_pass := pass_id } := by
  obtain ⟨n, rfl⟩ : ∃ n, N = n + 1 := ⟨N - 1, by omega⟩
  rw [Function.iterate_succ_apply]
  have h1 : advance st speed scale pass_id
      = { st with time := st.time + max (0.1 : ℚ) speed * scale, last_pass := pass_id } := by
    unfold advance
    rw [if_pos h]
  rw [h1]
  exact Function.iterate_fixed (by unfold advance; rw [if_neg (by simp)]) n

/-- C4, witness: three iterated calls with pass id 7 on a state last advanced
in pass 5 advance the clock exactly once. -/
theorem C4_witness :
    (fun s => advance s 1 1 7)^[3] { time := 0, current := 0xFF0000, last_pass := 5 }
      = { time := (0 : ℚ) + max (0.1 : ℚ) 1 * 1, current := 0xFF0000, last_pass := 7 } :=
  C4_amended { time := 0, current := 0xFF0000, last_pass := 5 } 1 1 7 (by decide) 3 (by decide)

/-- C7, counterexample: the claim says two consecutive `set_dwm_border_color`
calls with the same non-sentinel color invoke the native primitive exactly
once, for every handle and color — but when the handle's recorded last color
already equals the color, neither call invokes it (zero invocations). -/
theorem C7_counterexample :
    (set_dwm_border_color
        (set_dwm_border_color { last_colors := [(1, 0x00FF00)], writes := [] } 1 0x00FF00 true)
        1 0x00FF00 true).writes = [] := by decide

/-- C7, amended: for a non-sentinel color that differs from the handle's
recorded last color, two consecutive (successful) calls invoke the native
primitive exactly once; and a sentinel color (Default/None/Invalid) never
invokes the primitive and leaves the whole writer state — in particular the
last-color record — unchanged. -/
theorem C7_amended (st : DwmState) (hwnd : Int) :
    (∀ c, ¬ isSentinel c → List.lookup hwnd st.last_colors ≠ some c →
      (set_dwm_border_color (set_dwm_border_color st hwnd c true) hwnd c true).writes
        = st.writes ++ [(hwnd, Int.emod c 4294967296)])
    ∧ (∀ c (ok : Bool), isSentinel c → set_dwm_border_color st hwnd c ok = st) := by
  constructor
  · intro c hns hnew
    rw [set_dwm_new st hwnd c true hns hnew]
    simp only [if_pos]
    rw [set_dwm_same _ hwnd c true hns (by exact lookup_aset_self _ _ _)]
  · intro c ok hs
    exact set_dwm_sentinel st hwnd c ok hs

/-- C7, witness: the amended statement at a concrete state, handle, a fresh
green color and the Default sentinel. -/
theorem C7_witness :
    (set_dwm_border_color
        (set_dwm_border_color { last_colors := [], writes := [] } 1 0x00FF00 true)
        1 0x00FF00 true).writes = [] ++ [(1, Int.emod 0x00FF00 4294967296)]
    ∧ set_dwm_border_color { last_colors := [], writes := [] } 1
        ((DWMWA_COLOR_DEFAULT : Nat) : Int) true = { last_colors := [], writes := [] } :=
  ⟨(C7_amended { last_colors := [], writes := [] } 1).1 0x00FF00 (by decide) (by decide),
   (C7_amended { last_colors := [], writes := [] } 1).2 _ true (by decide)⟩

/-- C10: if the native write raises (modelled by `ok = false`), the last-color
record is left unchanged — the color is recorded only after the native call
returns — and therefore a later successful call for the same fresh color does
invoke the primitive again and records it, instead of being wrongly skipped. -/
theorem C10_theorem (st : DwmState) (hwnd c : Int) (hns : ¬ isSentinel c) :
    (set_dwm_border_color st hwnd c false).last_colors = st.last_colors
    ∧ (List.lookup hwnd st.last_colors ≠ some c →
        (set_dwm_border_color (set_dwm_border_color st hwnd c false) hwnd c true).last_colors
          = aset st.last_colors hwnd c
        ∧ (set_dwm_border_color (set_dwm_border_color st hwnd c false) hwnd c true).writes
          = st.writes ++ [(hwnd, Int.emod c 4294967296), (hwnd, Int.emod c 4294967296)]) := by
  constructor
  · by_cases hsame : List.lookup hwnd st.last_colors = some c
    · rw [set_dwm_same st hwnd c false hns hsame]
    · rw [set_dwm_new st hwnd c false hns hsame]
      simp
  · intro hnew
    rw [set_dwm_new st hwnd c false hns hnew]
    simp only [Bool.false_eq_true, if_false]
    rw [set_dwm_new _ hwnd c true hns (by simpa using hnew)]
    simp

/-- C10, witness: the statement at a concrete empty writer state, handle 1
and a fresh green color. -/
theorem C10_witness :
    (set_dwm_border_color { last_colors := [], writes := [] } 1 0x00FF00 false).last_colors = []
    ∧ ((List.lookup 1 ([] : List (Int × Int)) ≠ some 0x00FF00) →
        (set_dwm_border_color
            (set_dwm_border_color { last_colors := [], writes := [] } 1 0x00FF00 false)
            1 0x00FF00 true).last_colors = aset [] 1 0x00FF00
        ∧ (set_dwm_border_color
            (set_dwm_border_color { last_colors := [], writes := [] } 1 0x00FF00 false)
            1 0x00FF00 true).writes
          = [] ++ [(1, Int.emod 0x00FF00 4294967296), (1, Int.emod 0x00FF00 4294967296)]) :=
  C10_theorem { last_colors := [], writes := [] } 1 0x00FF00 (by decide)

/-- C9: pure red collides with the invalid sentinel: `hex_to_colorref`
decodes `"#ff0000"` to the BGR value `0x0000FF`, which is exactly
`COLOR_INVALID`; consequently `resolve_colors` silently replaces a static
active or inactive color `"#ff0000"` by the Default sentinel, and the
differential writer never invokes the native primitive for the Default
sentinel. -/
theorem C9_theorem :
    hex_to_colorref ("#ff0000".toList) = COLOR_INVALID
    ∧ (∀ (r : Rule) (d : GlobalDefaults), r.animation = some noneAnim →
        r.active_border_color = some ("#ff0000".toList) →
        (resolve_colors (some r) d).1 = ((DWMWA_COLOR_DEFAULT : Nat) : Int))
    ∧ (∀ (r : Rule) (d : GlobalDefaults), r.animation = some noneAnim →
        r.inactive_border_color = some ("#ff0000".toList) →
        (resolve_colors (some r) d).2.1 = ((DWMWA_COLOR_DEFAULT : Nat) : Int))
    ∧ (∀ (st : DwmState) (hwnd : Int) (ok : Bool),
        set_dwm_border_color st hwnd ((DWMWA_COLOR_DEFAULT : Nat) : Int) ok = st) := by
  refine ⟨by decide, ?_, ?_, ?_⟩
  · intro r d hanim hact
    simp only [resolve_colors, Option.some_bind, hanim, hact]
    rfl
  · intro r d hanim hinact
    simp only [resolve_colors, Option.some_bind, hanim, hinact]
    rfl
  · intro st hwnd ok
    exact set_dwm_sentinel st hwnd _ ok (Or.inl rfl)

/-- C9, witness: the universally quantified parts of C9 applied to a concrete
rule carrying static pure red and to a concrete writer state. -/
theorem C9_witness :
    (resolve_colors
        (some { match_ := some ("Global".toList), contains := some []
                active_border_color := some ("#ff0000".toList)
                inactive_border_color := some ("#ff0000".toList)
                animation := some noneAnim })
        { animation := none }).1 = ((DWMWA_COLOR_DEFAULT : Nat) : Int)
    ∧ set_dwm_border_color { last_colors := [], writes := [] } 1
        ((DWMWA_COLOR_DEFAULT : Nat) : Int) true = { last_colors := [], writes := [] } :=
  ⟨C9_theorem.2.1 _ { animation := none } rfl rfl,
   C9_theorem.2.2.2 { last_colors := [], writes := [] } 1 true⟩

/-- `color_for` with type string `"rainbow"` dispatches to `_rainbow`. -/
lemma color_for_rainbow (sinQ : ℚ → ℚ) (tbl : AnimTable) (key : PyStr) (speed : ℚ)
    (a b : Option Nat) (pass_id : Int) :
    color_for sinQ tbl key ("rainbow".toList) speed a b pass_id
      = ((rainbow tbl key speed pass_id).1, some (rainbow tbl key speed pass_id).2) := by
  simp only [color_for]
  rw [if_neg (by decide), if_pos (by decide)]

/-- C5: the pass-id gating does not hold for the rainbow kind.  Two
consecutive `color_for` calls with the same key and the same `pass_id` (as
happen when two windows share an animation key within one pass) return
different colors: starting from a fresh state, the first call of pass 1
returns `0xFF0500` and the second call of the same pass returns `0xFF0A00`,
because `_rainbow` steps the stored color on every call — `_advance` gates
only the `time` field, which `_rainbow` never reads. -/
theorem C5_rainbow_not_gated :
    (color_for (fun _ => 0) [] ("k".toList) ("rainbow".toList) 1 none none 1).2
        = some 0xFF0500
    ∧ (color_for (fun _ => 0)
          (color_for (fun _ => 0) [] ("k".toList) ("rainbow".toList) 1 none none 1).1
          ("k".toList) ("rainbow".toList) 1 none none 1).2
        = some 0xFF0A00
    ∧ (color_for (fun _ => 0) [] ("k".toList) ("rainbow".toList) 1 none none 1).2
        ≠ (color_for (fun _ => 0)
            (color_for (fun _ => 0) [] ("k".toList) ("rainbow".toList) 1 none none 1).1
            ("k".toList) ("rainbow".toList) 1 none none 1).2 := by
  have h1 :
      (color_for (fun _ => 0) [] ("k".toList) ("rainbow".toList) 1 none none 1).2
        = some 0xFF0500 := by
    simp only [color_for_rainbow]
    rw [rainbow_snd, step_of_speed_one]
    decide
  have h2 :
      (color_for (fun _ => 0)
          (color_for (fun _ => 0) [] ("k".toList) ("rainbow".toList) 1 none none 1).1
          ("k".toList) ("rainbow".toList) 1 none none 1).2
        = some 0xFF0A00 := by
    simp only [color_for_rainbow]
    rw [rainbow_snd, rainbow_fst_current, step_of_speed_one]
    decide
  exact ⟨h1, h2, by rw [h1, h2]; decide⟩

/-- With no matched rule and a present default animation dict of non-none
kind, `resolve_colors` returns the Animated directive built from the
defaults. -/
lemma resolve_none_rule_animated (d : GlobalDefaults) (a : AnimSpec)
    (hd : d.animation = some a)
    (ht : lower (pyOrStr a.type_ ("none".toList)) ≠ "none".toList) :
    resolve_colors none d
      = (-1, -1, (lower (pyOrStr a.type_ ("none".toList)), pyOrQ a.speed 1)) := by
  simp only [resolve_colors, hd]
  rw [if_pos ht]

/-- With no matched rule and an absent or kind-none default animation,
`resolve_colors` returns `Static{Default, Default}`. -/
lemma resolve_none_rule_static (d : GlobalDefaults)
    (h : d.animation = none ∨ ∃ a, d.animation = some a ∧
        lower (pyOrStr a.type_ ("none".toList)) = "none".toList) :
    resolve_colors none d
      = (((DWMWA_COLOR_DEFAULT : Nat) : Int), ((DWMWA_COLOR_DEFAULT : Nat) : Int),
          ("none".toList, 1)) := by
  rcases h with hd | ⟨a, hd, ht⟩
  · simp only [resolve_colors, hd]
    rfl
  · simp only [resolve_colors, hd]
    rw [if_neg (not_not_intro ht)]
    rfl

/-- C6, counterexample: two concrete failures of the claim.  First, a matched
rule whose animation kind is none (an explicit `animation: none, speed 1.0`
dict, as the shipped default Global rule carries) together with a global
default animation of kind rainbow: the claim says `resolve_colors` returns
the Animated directive from the global defaults, but the code returns the
Static pair from the rule's colors — the rule's animation dict is truthy, so
no fallback happens.  Second, with no rule matched at all and the same
rainbow default, the claim says `Static{Default, Default}` is returned, but
the code returns the Animated rainbow directive. -/
theorem C6_counterexample :
    resolve_colors
        (some { match_ := some ("Global".toList), contains := some []
                active_border_color := some ("#c6a0f6".toList)
                inactive_border_color := some ("#ffffff".toList)
                animation := some noneAnim })
        { animation := some { type_ := some ("rainbow".toList), speed := some 1 } }
      = ((0xF6A0C6 : Int), (0xFFFFFF : Int), ("none".toList, 1))
    ∧ ("none".toList, (1 : ℚ)) ≠ ("rainbow".toList, (1 : ℚ))
    ∧ resolve_colors none
        { animation := some { type_ := some ("rainbow".toList), speed := some 1 } }
      = (-1, -1, ("rainbow".toList, 1))
    ∧ ((-1 : Int), (-1 : Int), ("rainbow".toList, (1 : ℚ)))
      ≠ (((DWMWA_COLOR_DEFAULT : Nat) : Int), ((DWMWA_COLOR_DEFAULT : Nat) : Int),
          ("none".toList, (1 : ℚ))) := by
  refine ⟨?_, by decide, ?_, by decide⟩
  · simp only [resolve_colors, Option.some_bind]
    rfl
  · simp only [resolve_colors]
    rfl

/-- C6, amended: `resolve_colors` falls back to the global default animation
only when the rule's `animation` field is absent (None/missing), not when it
is present with kind none.  With an absent animation field and a non-none
global default it returns the Animated directive built from the defaults.  A
present kind-none animation yields the Static pair parsed from the rule's own
active and inactive colors (each independently, Invalid silently replaced by
Default), regardless of the global default.  And when no rule matched at all
the global default animation applies in the same way: the Animated directive
from the defaults when their kind is non-none, and `Static{Default, Default}`
exactly when the default is absent or of kind none. -/
theorem C6_amended :
    (∀ (r : Rule) (d : GlobalDefaults) (a : AnimSpec),
      r.animation = none → d.animation = some a →
      lower (pyOrStr a.type_ ("none".toList)) ≠ "none".toList →
      resolve_colors (some r) d
        = (-1, -1, (lower (pyOrStr a.type_ ("none".toList)), pyOrQ a.speed 1)))
    ∧ (∀ (r : Rule) (d : GlobalDefaults) (a : AnimSpec),
      r.animation = some a →
      lower (pyOrStr a.type_ ("none".toList)) = "none".toList →
      resolve_colors (some r) d = resolve_colors (some r) { animation := none }
      ∧ (resolve_colors (some r) d).2.2 = ("none".toList, 1)
      ∧ (hex_to_colorref (pyOrStr r.active_border_color ("default".toList)) = COLOR_INVALID →
          (resolve_colors (some r) d).1 = ((DWMWA_COLOR_DEFAULT : Nat) : Int))
      ∧ (hex_to_colorref (pyOrStr r.active_border_color ("default".toList)) ≠ COLOR_INVALID →
          (resolve_colors (some r) d).1
            = ((hex_to_colorref (pyOrStr r.active_border_color ("default".toList)) : Nat) : Int))
      ∧ (hex_to_colorref (pyOrStr r.inactive_border_color ("default".toList)) = COLOR_INVALID →
          (resolve_colors (some r) d).2.1 = ((DWMWA_COLOR_DEFAULT : Nat) : Int))
      ∧ (hex_to_colorref (pyOrStr r.inactive_border_color ("default".toList)) ≠ COLOR_INVALID →
          (resolve_colors (some r) d).2.1
            = ((hex_to_colorref (pyOrStr r.inactive_border_color ("default".toList)) : Nat) : Int)))
    ∧ (∀ (d : GlobalDefaults) (a : AnimSpec),
      d.animation = some a →
      lower (pyOrStr a.type_ ("none".toList)) ≠ "none".toList →
      resolve_colors none d
        = (-1, -1, (lower (pyOrStr a.type_ ("none".toList)), pyOrQ a.speed 1)))
    ∧ (∀ (d : GlobalDefaults),
      resolve_colors none d
          = (((DWMWA_COLOR_DEFAULT : Nat) : Int), ((DWMWA_COLOR_DEFAULT : Nat) : Int),
              ("none".toList, 1))
        ↔ (d.animation = none ∨ ∃ a, d.animation = some a ∧
            lower (pyOrStr a.type_ ("none".toList)) = "none".toList)) := by
  refine ⟨?_, ?_, ?_, ?_⟩
  · intro r d a hr hd ht
    simp only [resolve_colors, Option.some_bind, hr, hd]
    rw [if_pos ht]
  · intro r d a hr ht
    have key : ∀ (d' : GlobalDefaults),
        resolve_colors (some r) d'
          = ((((if hex_to_colorref (pyOrStr r.active_border_color ("default".toList))
                  = COLOR_INVALID then hex_to_colorref ("default".toList)
                else hex_to_colorref (pyOrStr r.active_border_color ("default".toList))) : Nat) : Int),
              (((if hex_to_colorref (pyOrStr r.inactive_border_color ("default".toList))
                  = COLOR_INVALID then hex_to_colorref ("default".toList)
                else hex_to_colorref (pyOrStr r.inactive_border_color ("default".toList))) : Nat) : Int),
              ("none".toList, 1)) := by
      intro d'
      simp only [resolve_colors, Option.some_bind, hr]
      rw [if_neg (not_not_intro ht)]
    refine ⟨by rw [key, key], by rw [key], ?_, ?_, ?_, ?_⟩
    · intro hinv
      rw [key]
      simp only [if_pos hinv]
      rfl
    · intro hinv
      rw [key]
      simp only [if_neg hinv]
    · intro hinv
      rw [key]
      simp only [if_pos hinv]
      rfl
    · intro hinv
      rw [key]
      simp only [if_neg hinv]
  · intro d a hd ht
    exact resolve_none_rule_animated d a hd ht
  · intro d
    constructor
    · intro heq
      cases hda : d.animation with
      | none => exact Or.inl rfl
      | some a =>
          by_cases ht : lower (pyOrStr a.type_ ("none".toList)) = "none".toList
          · exact Or.inr ⟨a, rfl, ht⟩
          · exfalso
            rw [resolve_none_rule_animated d a hda ht] at heq
            have h1 := congrArg (fun t => t.1) heq
            simp only [DWMWA_COLOR_DEFAULT] at h1
            exact absurd h1 (by decide)
    · exact fun h => resolve_none_rule_static d h

/-- C6, witness: the four parts of the amended statement at concrete rules
and defaults — a rule with no animation key falling back to the rainbow
default; a rule with an explicit kind-none animation whose active and
inactive colors are both invalid, each independently replaced by Default; the
no-rule case under a rainbow default yielding the Animated directive; and the
no-rule case under an absent default yielding Static{Default, Default}. -/
theorem C6_witness :
    resolve_colors
        (some { match_ := some ("Global".toList), contains := some []
                active_border_color := some ("#c6a0f6".toList)
                inactive_border_color := some ("#ffffff".toList)
                animation := none })
        { animation := some { type_ := some ("rainbow".toList), speed := some 1 } }
      = (-1, -1, (lower (pyOrStr (some ("rainbow".toList)) ("none".toList)),
          pyOrQ (some 1) 1))
    ∧ (resolve_colors
        (some { match_ := some ("Global".toList), contains := some []
                active_border_color := some ("nonsense".toList)
                inactive_border_color := some ("bogus".toList)
                animation := some noneAnim })
        { animation := some { type_ := some ("rainbow".toList), speed := some 1 } }).1
      = ((DWMWA_COLOR_DEFAULT : Nat) : Int)
    ∧ (resolve_colors
        (some { match_ := some ("Global".toList), contains := some []
                active_border_color := some ("nonsense".toList)
                inactive_border_color := some ("bogus".toList)
                animation := some noneAnim })
        { animation := some { type_ := some ("rainbow".toList), speed := some 1 } }).2.1
      = ((DWMWA_COLOR_DEFAULT : Nat) : Int)
    ∧ resolve_colors none
        { animation := some { type_ := some ("rainbow".toList), speed := some 1 } }
      = (-1, -1, (lower (pyOrStr (some ("rainbow".toList)) ("none".toList)),
          pyOrQ (some 1) 1))
    ∧ resolve_colors none { animation := none }
      = (((DWMWA_COLOR_DEFAULT : Nat) : Int), ((DWMWA_COLOR_DEFAULT : Nat) : Int),
          ("none".toList, 1)) :=
  ⟨C6_amended.1 _ _ { type_ := some ("rainbow".toList), speed := some 1 } rfl rfl (by decide),
   ((C6_amended.2.1 _ { animation := some { type_ := some ("rainbow".toList), speed := some 1 } }
      noneAnim rfl (by decide)).2.2.1 (by decide)),
   ((C6_amended.2.1 _ { animation := some { type_ := some ("rainbow".toList), speed := some 1 } }
      noneAnim rfl (by decide)).2.2.2.2.1 (by decide)),
   C6_amended.2.2.1 { animation := some { type_ := some ("rainbow".toList), speed := some 1 } }
      { type_ := some ("rainbow".toList), speed := some 1 } rfl (by decide),
   (C6_amended.2.2.2 { animation := none }).mpr (Or.inl rfl)⟩

/-- C8: the eviction helper `_gc_pid_cache` would indeed drop an entry whose
age exceeds 60 time units, but the lookup operation `get_process_name_fast`
never runs it (no call site of `_gc_pid_cache` exists anywhere in the
repository), so the cache keeps entries unseen for arbitrarily long: here a
pid-1 entry last seen at time 0 survives, untouched, a lookup of pid 2 at
time 100 — age 100 > 60 — while a `_gc_pid_cache` run at time 100 would have
evicted it. -/
theorem C8_no_eviction_on_lookup :
    List.lookup 1
        (get_process_name_fast
          { pid_name_cache := [(1, "a.exe".toList)], pid_last_seen := [(1, 0)] }
          2 ("b.exe".toList) 100).1.pid_last_seen = some (0 : ℚ)
    ∧ List.lookup 1
        (get_process_name_fast
          { pid_name_cache := [(1, "a.exe".toList)], pid_last_seen := [(1, 0)] }
          2 ("b.exe".toList) 100).1.pid_name_cache = some ("a.exe".toList)
    ∧ (100 : ℚ) - 0 > 60
    ∧ (gc_pid_cache
          { pid_name_cache := [(1, "a.exe".toList)], pid_last_seen := [(1, 0)] }
          100 60).pid_name_cache = []
    ∧ (gc_pid_cache
          { pid_name_cache := [(1, "a.exe".toList)], pid_last_seen := [(1, 0)] }
          100 60).pid_last_seen = [] := by
  have hgt : ((100 : ℚ) - 0 > 60) = True := by norm_num
  refine ⟨?_, ?_, by norm_num, ?_, ?_⟩
  · simp only [get_process_name_fast]
    rfl
  · simp only [get_process_name_fast]
    rfl
  · norm_num [gc_pid_cache, List.filter]
  · norm_num [gc_pid_cache, List.filter]

/-- Everything the C1 round-trip proof needs about one hexadecimal digit
character, established by exhausting the 22 cases. -/
lemma hexChar_facts (c : Char) (h : c ∈ hexCharsCI) :
    Char.toLower c ∈ hexDigits
    ∧ isSpaceChar c = false
    ∧ hexVal (Char.toLower c) < 16
    ∧ hexDigitChar (hexVal (Char.toLower c)) = Char.toUpper c
    ∧ Char.toUpper (Char.toUpper c) = Char.toUpper c
    ∧ isSpaceChar (Char.toUpper c) = false
    ∧ Char.toLower c ≠ '#'
    ∧ (hexVal (Char.toLower c) = 15 ↔ Char.toLower c = 'f')
    ∧ (hexVal (Char.toLower c) = 0 ↔ Char.toLower c = '0') := by
  fin_cases h <;> decide

lemma dropWhile_of_all_false (p : Char → Bool) (s : PyStr)
    (h : ∀ c ∈ s, p c = false) : s.dropWhile p = s := by
  cases s with
  | nil => rfl
  | cons a t => simp [List.dropWhile_cons, h a (by simp)]

/-- `strip` is the identity on strings without whitespace characters. -/
lemma strip_of_no_space (s : PyStr) (h : ∀ c ∈ s, isSpaceChar c = false) :
    strip s = s := by
  unfold strip
  rw [dropWhile_of_all_false _ s h,
    dropWhile_of_all_false _ s.reverse (by intro c hc; exact h c (List.mem_reverse.mp hc)),
    List.reverse_reverse]

lemma exists_six (cs : PyStr) (h : cs.length = 6) :
    ∃ a b c d e f', cs = [a, b, c, d, e, f'] := by
  rcases cs with _ | ⟨a, _ | ⟨b, _ | ⟨c, _ | ⟨d, _ | ⟨e, _ | ⟨f', _ | ⟨g, t⟩⟩⟩⟩⟩⟩⟩
  · simp at h
  · simp at h
  · simp at h
  · simp at h
  · simp at h
  · simp at h
  · exact ⟨a, b, c, d, e, f', rfl⟩
  · simp at h

/-- Evaluation of `hex_to_colorref` on a six-hex-digit string: the result is
the BGR packing of the three decoded bytes. -/
lemma hex_to_colorref_hexdigits (c0 c1 c2 c3 c4 c5 : Char)
    (hhex : ∀ c ∈ [c0, c1, c2, c3, c4, c5], c ∈ hexCharsCI) :
    hex_to_colorref [c0, c1, c2, c3, c4, c5]
      = (hexVal c4.toLower * 16 + hexVal c5.toLower) * 65536
        + (hexVal c2.toLower * 16 + hexVal c3.toLower) * 256
        + (hexVal c0.toLower * 16 + hexVal c1.toLower) := by
  have f0 := hexChar_facts c0 (hhex c0 (by simp))
  have f1 := hexChar_facts c1 (hhex c1 (by simp))
  have f2 := hexChar_facts c2 (hhex c2 (by simp))
  have f3 := hexChar_facts c3 (hhex c3 (by simp))
  have f4 := hexChar_facts c4 (hhex c4 (by simp))
  have f5 := hexChar_facts c5 (hhex c5 (by simp))
  have hstrip : strip [c0, c1, c2, c3, c4, c5] = [c0, c1, c2, c3, c4, c5] := by
    refine strip_of_no_space _ ?_
    intro c hc
    simp only [List.mem_cons, List.not_mem_nil, or_false] at hc
    rcases hc with rfl | rfl | rfl | rfl | rfl | rfl
    · exact f0.2.1
    · exact f1.2.1
    · exact f2.2.1
    · exact f3.2.1
    · exact f4.2.1
    · exact f5.2.1
  simp only [hex_to_colorref, hstrip, lower, List.map_cons, List.map_nil]
  rw [if_neg (by intro heq; simpa using congrArg List.length heq)]
  rw [if_neg (by intro heq; simpa using congrArg List.length heq)]
  rw [show startsWithHash
        [c0.toLower, c1.toLower, c2.toLower, c3.toLower, c4.toLower, c5.toLower] = false by
      simp [startsWithHash, f0.2.2.2.2.2.2.1]]
  rw [if_neg Bool.false_ne_true]
  have m0 : hexDigits.contains c0.toLower = true := by simp [f0.1]
  have m1 : hexDigits.contains c1.toLower = true := by simp [f1.1]
  have m2 : hexDigits.contains c2.toLower = true := by simp [f2.1]
  have m3 : hexDigits.contains c3.toLower = true := by simp [f3.1]
  have m4 : hexDigits.contains c4.toLower = true := by simp [f4.1]
  have m5 : hexDigits.contains c5.toLower = true := by simp [f5.1]
  rw [if_pos (by
    simp only [List.all_cons, List.all_nil, List.length_cons, List.length_nil]
    rw [m0, m1, m2, m3, m4, m5]
    decide)]
  simp only [List.drop, List.take, List.append_assoc, List.cons_append, List.nil_append,
    parseHex, List.foldl]
  ring

/-- Evaluation of `colorref_to_hex` on a non-sentinel packed BGR value. -/
lemma colorref_to_hex_bytes (B G R : Nat) (hB : B < 256) (hG : G < 256) (hR : R < 256)
    (hinv : B * 65536 + G * 256 + R ≠ COLOR_INVALID) :
    colorref_to_hex (B * 65536 + G * 256 + R)
      = '#' :: (byteToHexUpper R ++ (byteToHexUpper G ++ byteToHexUpper B)) := by
  unfold colorref_to_hex
  rw [if_neg (by
    push_neg
    refine ⟨by unfold DWMWA_COLOR_DEFAULT; omega, by unfold DWMWA_COLOR_NONE; omega, hinv⟩)]
  have hmask : ∀ n : Nat, n &&& 0xFF = n % 256 := by
    intro n
    have := Nat.and_pow_two_sub_one_eq_mod n 8
    norm_num at this
    exact this
  have hb : (B * 65536 + G * 256 + R) >>> 16 &&& 0xFF = B := by
    rw [hmask, Nat.shiftRight_eq_div_pow]
    norm_num
    omega
  have hg : (B * 65536 + G * 256 + R) >>> 8 &&& 0xFF = G := by
    rw [hmask, Nat.shiftRight_eq_div_pow]
    norm_num
    omega
  have hr : (B * 65536 + G * 256 + R) &&& 0xFF = R := by
    rw [hmask]
    omega
  rw [hb, hg, hr]

/-- `f"{n:02X}"` splits a byte into its two hexadecimal digits. -/
lemma byteToHexUpper_split (hi lo : Nat) (hhi : hi < 16) (hlo : lo < 16) :
    byteToHexUpper (hi * 16 + lo) = [hexDigitChar hi, hexDigitChar lo] := by
  unfold byteToHexUpper
  have h1 : (hi * 16 + lo) / 16 = hi := by omega
  have h2 : (hi * 16 + lo) % 16 = lo := by omega
  rw [h1, h2]

/-- C1, counterexample: the claim quantifies over every 6-hex-digit string,
but `"ff0000"` decodes to the BGR value `0x0000FF`, which is exactly
`COLOR_INVALID`, so its display form collapses to the sentinel rendering
`"#000000"` instead of round-tripping to `"#FF0000"`. -/
theorem C1_counterexample :
    normalize_hex (colorref_to_hex (hex_to_colorref ("ff0000".toList))) = "#000000".toList
    ∧ "#000000".toList ≠ '#' :: upper ("ff0000".toList) := by
  decide

/-- C1, amended: for every string of exactly 6 hexadecimal digits except the
pure-red `"ff0000"` (case-insensitively) — whose decoded value collides with
the `COLOR_INVALID` sentinel and is lossy by design — normalizing the display
form of the parsed color round-trips to `"#"` followed by the string
uppercased. -/
theorem C1_amended (cs : PyStr) (h6 : cs.length = 6)
    (hhex : ∀ c ∈ cs, c ∈ hexCharsCI)
    (hred : lower cs ≠ "ff0000".toList) :
    normalize_hex (colorref_to_hex (hex_to_colorref cs)) = '#' :: upper cs := by
  obtain ⟨c0, c1, c2, c3, c4, c5, rfl⟩ := exists_six cs h6
  have f0 := hexChar_facts c0 (hhex c0 (by simp))
  have f1 := hexChar_facts c1 (hhex c1 (by simp))
  have f2 := hexChar_facts c2 (hhex c2 (by simp))
  have f3 := hexChar_facts c3 (hhex c3 (by simp))
  have f4 := hexChar_facts c4 (hhex c4 (by simp))
  have f5 := hexChar_facts c5 (hhex c5 (by simp))
  have hv0 : hexVal c0.toLower < 16 := f0.2.2.1
  have hv1 : hexVal c1.toLower < 16 := f1.2.2.1
  have hv2 : hexVal c2.toLower < 16 := f2.2.2.1
  have hv3 : hexVal c3.toLower < 16 := f3.2.2.1
  have hv4 : hexVal c4.toLower < 16 := f4.2.2.1
  have hv5 : hexVal c5.toLower < 16 := f5.2.2.1
  rw [hex_to_colorref_hexdigits c0 c1 c2 c3 c4 c5 hhex]
  have hinv : (hexVal c4.toLower * 16 + hexVal c5.toLower) * 65536
      + (hexVal c2.toLower * 16 + hexVal c3.toLower) * 256
      + (hexVal c0.toLower * 16 + hexVal c1.toLower) ≠ COLOR_INVALID := by
    intro hcoll
    unfold COLOR_INVALID at hcoll
    have e0 : hexVal c0.toLower = 15 := by omega
    have e1 : hexVal c1.toLower = 15 := by omega
    have e2 : hexVal c2.toLower = 0 := by omega
    have e3 : hexVal c3.toLower = 0 := by omega
    have e4 : hexVal c4.toLower = 0 := by omega
    have e5 : hexVal c5.toLower = 0 := by omega
    refine hred ?_
    simp only [lower, List.map_cons, List.map_nil]
    rw [f0.2.2.2.2.2.2.2.1.mp e0, f1.2.2.2.2.2.2.2.1.mp e1,
      f2.2.2.2.2.2.2.2.2.mp e2, f3.2.2.2.2.2.2.2.2.mp e3,
      f4.2.2.2.2.2.2.2.2.mp e4, f5.2.2.2.2.2.2.2.2.mp e5]
    rfl
  rw [colorref_to_hex_bytes _ _ _ (by omega) (by omega) (by omega) hinv]
  rw [byteToHexUpper_split _ _ hv0 hv1, byteToHexUpper_split _ _ hv2 hv3,
    byteToHexUpper_split _ _ hv4 hv5]
  rw [f0.2.2.2.1, f1.2.2.2.1, f2.2.2.2.1, f3.2.2.2.1, f4.2.2.2.1, f5.2.2.2.1]
  simp only [List.cons_append, List.nil_append]
  have hstrip : strip ('#' :: [c0.toUpper, c1.toUpper, c2.toUpper, c3.toUpper,
      c4.toUpper, c5.toUpper]) = '#' :: [c0.toUpper, c1.toUpper, c2.toUpper, c3.toUpper,
      c4.toUpper, c5.toUpper] := by
    refine strip_of_no_space _ ?_
    intro c hc
    simp only [List.mem_cons, List.not_mem_nil, or_false] at hc
    rcases hc with rfl | rfl | rfl | rfl | rfl | rfl | rfl
    · decide
    · exact f0.2.2.2.2.2.1
    · exact f1.2.2.2.2.2.1
    · exact f2.2.2.2.2.2.1
    · exact f3.2.2.2.2.2.1
    · exact f4.2.2.2.2.2.1
    · exact f5.2.2.2.2.2.1
  show normalize_hex _ = _
  simp only [normalize_hex, hstrip]
  rw [if_neg (by simp)]
  rw [if_neg (by
    push_neg
    constructor
    · intro heq
      rw [show "default".toList = ['d', 'e', 'f', 'a', 'u', 'l', 't'] from rfl] at heq
      simp only [lower, List.map_cons] at heq
      injection heq with h1 _
      exact absurd h1 (by decide)
    · intro heq
      rw [show "none".toList = ['n', 'o', 'n', 'e'] from rfl] at heq
      simp only [lower, List.map_cons] at heq
      injection heq with h1 _
      exact absurd h1 (by decide))]
  rw [show startsWithHash ('#' :: [c0.toUpper, c1.toUpper, c2.toUpper, c3.toUpper,
      c4.toUpper, c5.toUpper]) = true from by simp [startsWithHash]]
  rw [if_pos rfl]
  rw [if_neg (by simp)]
  simp only [upper, List.map_cons, List.map_nil]
  rw [show Char.toUpper '#' = '#' from by decide]
  rw [f0.2.2.2.2.1, f1.2.2.2.2.1, f2.2.2.2.2.1, f3.2.2.2.2.1, f4.2.2.2.2.1,
    f5.2.2.2.2.1]

/-- C1, witness: the amended round-trip at the concrete string `"c6a0f6"`. -/
theorem C1_witness :
    normalize_hex (colorref_to_hex (hex_to_colorref ("c6a0f6".toList)))
      = '#' :: upper ("c6a0f6".toList) :=
  C1_amended ("c6a0f6".toList) (by decide) (by decide) (by decide)

lemma keyGt_irrefl (k : Int × Int) : ¬ keyGt k k := by
  unfold keyGt; omega

lemma keyGt_asymm {k1 k2 : Int × Int} (h : keyGt k1 k2) : ¬ keyGt k2 k1 := by
  unfold keyGt at *; omega

lemma keyGt_trans {k1 k2 k3 : Int × Int} (h1 : keyGt k1 k2) (h2 : keyGt k2 k3) :
    keyGt k1 k3 := by
  unfold keyGt at *; omega

lemma not_keyGt_trans {k1 k2 k3 : Int × Int} (h1 : ¬ keyGt k1 k2) (h2 : ¬ keyGt k2 k3) :
    ¬ keyGt k1 k3 := by
  unfold keyGt at *; omega

lemma score_rule_nonneg (r : Rule) : 0 ≤ score_rule r := by
  simp only [score_rule]
  split
  · decide
  · split <;> decide

lemma score_rule_le_three (r : Rule) : score_rule r ≤ 3 := by
  simp only [score_rule]
  split
  · decide
  · split <;> decide

lemma score_rule_eq_three_iff (r : Rule) :
    score_rule r = 3 ↔ lower (pyOrStr r.match_ []) = "process".toList := by
  simp only [score_rule]
  split_ifs with h1 h2
  · exact iff_of_true rfl h1
  · exact iff_of_false (by decide) h1
  · exact iff_of_false (by decide) h1

/-- The loop's replacement condition is exactly `keyGt` on the keys. -/
lemma cond_iff_keyGt (r b : Rule) :
    (score_rule r > score_rule b ∨ (score_rule r = score_rule b ∧
      ((pyOrStr r.contains []).length : Int)
        > ((pyOrStr b.contains []).length : Int)))
    ↔ keyGt (ruleKey r) (ruleKey b) := Iff.rfl

/-- The source loop, run with accumulator `some b` (and its score), computes
the same winner as `firstBest`, with `b` as the incumbent. -/
lemma pick_loop_some (title class_name process_name : PyStr) (rs : List Rule) :
    ∀ b : Rule,
      pick_rule_loop title class_name process_name rs (some b) (score_rule b)
        = match firstBest title class_name process_name rs with
          | none => some b
          | some x => if keyGt (ruleKey x) (ruleKey b) then some x else some b := by
  induction rs with
  | nil => intro b; rfl
  | cons r rs ih =>
      intro b
      by_cases hm : matchesRule r title class_name process_name = true
      · simp only [pick_rule_loop, firstBest, Option.some_bind]
        rw [if_pos hm, if_pos hm]
        simp only [cond_iff_keyGt]
        by_cases hk : keyGt (ruleKey r) (ruleKey b)
        · rw [if_pos hk, ih r]
          cases hF : firstBest title class_name process_name rs with
          | none => dsimp only; rw [if_pos hk]
          | some x =>
              dsimp only
              by_cases hxr : keyGt (ruleKey x) (ruleKey r)
              · simp only [if_pos hxr]
                rw [if_pos (keyGt_trans hxr hk)]
              · simp only [if_neg hxr]
                rw [if_pos hk]
        · rw [if_neg hk, ih b]
          cases hF : firstBest title class_name process_name rs with
          | none => dsimp only; rw [if_neg hk]
          | some x =>
              dsimp only
              by_cases hxr : keyGt (ruleKey x) (ruleKey r)
              · simp only [if_pos hxr]
              · simp only [if_neg hxr]
                by_cases hxb : keyGt (ruleKey x) (ruleKey b)
                · exact absurd hxb (not_keyGt_trans hxr hk)
                · rw [if_neg hxb, if_neg hk]
      · simp only [pick_rule_loop, firstBest]
        rw [if_neg hm, if_neg hm, ih b]

/-- `pick_rule`'s loop started from its actual initial accumulators computes
`firstBest`. -/
lemma pick_rule_eq_firstBest (config : AppConfig) (title class_name process_name : PyStr) :
    pick_rule config title class_name process_name
      = firstBest title class_name process_name config.window_rules := by
  show pick_rule_loop title class_name process_name config.window_rules none (-1) = _
  induction config.window_rules with
  | nil => rfl
  | cons r rs ih =>
      by_cases hm : matchesRule r title class_name process_name = true
      · simp only [pick_rule_loop, firstBest]
        rw [if_pos hm, if_pos hm]
        split_ifs with hcnd
        · rw [pick_loop_some title class_name process_name rs r]
        · exfalso
          have := score_rule_nonneg r
          exact hcnd (Or.inl (by omega))
      · simp only [pick_rule_loop, firstBest]
        rw [if_neg hm, if_neg hm, ih]

/-- When `firstBest` finds nothing, no rule matched. -/
lemma firstBest_none (title class_name process_name : PyStr) :
    ∀ rs, firstBest title class_name process_name rs = none →
      ∀ x ∈ rs, matchesRule x title class_name process_name = false := by
  intro rs
  induction rs with
  | nil => intro _ x hx; exact absurd hx (List.not_mem_nil x)
  | cons r rs ih =>
      intro h x hx
      by_cases hm : matchesRule r title class_name process_name = true
      · exfalso
        simp only [firstBest] at h
        rw [if_pos hm] at h
        cases hF : firstBest title class_name process_name rs with
        | none => rw [hF] at h; dsimp only at h; exact Option.noConfusion h
        | some b => rw [hF] at h; dsimp only at h; split at h <;> exact Option.noConfusion h
      · simp only [firstBest] at h
        rw [if_neg hm] at h
        rcases List.mem_cons.mp hx with rfl | hx
        · simpa using hm
        · exact ih h x hx

/-- The result of `firstBest` matches, is maximal for `keyGt` among the
matching rules, and strictly beats every matching rule before it. -/
lemma firstBest_some (title class_name process_name : PyStr) :
    ∀ (rs : List Rule) (r : Rule), firstBest title class_name process_name rs = some r →
      matchesRule r title class_name process_name = true
      ∧ (∃ l₁ l₂, rs = l₁ ++ r :: l₂
          ∧ ∀ x ∈ l₁, matchesRule x title class_name process_name = true →
              keyGt (ruleKey r) (ruleKey x))
      ∧ ∀ x ∈ rs, matchesRule x title class_name process_name = true →
          ¬ keyGt (ruleKey x) (ruleKey r) := by
  intro rs
  induction rs with
  | nil => intro r h; exact Option.noConfusion h
  | cons a rs ih =>
      intro r h
      by_cases hm : matchesRule a title class_name process_name = true
      · simp only [firstBest] at h
        rw [if_pos hm] at h
        cases hF : firstBest title class_name process_name rs with
        | none =>
            rw [hF] at h
            dsimp only at h
            obtain rfl : a = r := Option.some.inj h
            refine ⟨hm, ⟨[], rs, rfl, by intro x hx; exact absurd hx (List.not_mem_nil x)⟩, ?_⟩
            intro x hx hxm
            rcases List.mem_cons.mp hx with rfl | hx
            · exact keyGt_irrefl _
            · exact absurd hxm (by simp [firstBest_none title class_name process_name rs hF x hx])
        | some b =>
            rw [hF] at h
            dsimp only at h
            obtain ⟨ihm, ⟨l₁, l₂, hdec, hearl⟩, ihmax⟩ := ih b hF
            by_cases hba : keyGt (ruleKey b) (ruleKey a)
            · rw [if_pos hba] at h
              obtain rfl : b = r := Option.some.inj h
              refine ⟨ihm, ⟨a :: l₁, l₂, by rw [hdec, List.cons_append], ?_⟩, ?_⟩
              · intro x hx hxm
                rcases List.mem_cons.mp hx with rfl | hx
                · exact hba
                · exact hearl x hx hxm
              · intro x hx hxm
                rcases List.mem_cons.mp hx with rfl | hx
                · exact keyGt_asymm hba
                · exact ihmax x hx hxm
            · rw [if_neg hba] at h
              obtain rfl : a = r := Option.some.inj h
              refine ⟨hm, ⟨[], rs, rfl, by intro x hx; exact absurd hx (List.not_mem_nil x)⟩, ?_⟩
              intro x hx hxm
              rcases List.mem_cons.mp hx with rfl | hx
              · exact keyGt_irrefl _
              · exact not_keyGt_trans (ihmax x hx hxm) hba
      · simp only [firstBest] at h
        rw [if_neg hm] at h
        obtain ⟨ihm, ⟨l₁, l₂, hdec, hearl⟩, ihmax⟩ := ih r h
        refine ⟨ihm, ⟨a :: l₁, l₂, by rw [hdec, List.cons_append], ?_⟩, ?_⟩
        · intro x hx hxm
          rcases List.mem_cons.mp hx with rfl | hx
          · exact absurd hxm (by simpa using hm)
          · exact hearl x hx hxm
        · intro x hx hxm
          rcases List.mem_cons.mp hx with rfl | hx
          · exact absurd hxm (by simpa using hm)
          · exact ihmax x hx hxm

/-- C3: when at least two Process rules match the window, `pick_rule` returns
a matching Process rule whose `contains` is longest among all matching
Process rules, and every matching Process rule occurring earlier in the
sequence has a strictly shorter `contains` (so on equal lengths the earlier
rule is the one returned). -/
theorem C3_theorem (config : AppConfig) (title class_name process_name : PyStr)
    (h2 : 2 ≤ config.window_rules.countP
        (fun r => isProcessMatch r title class_name process_name)) :
    ∃ r l₁ l₂, pick_rule config title class_name process_name = some r
      ∧ isProcessMatch r title class_name process_name = true
      ∧ config.window_rules = l₁ ++ r :: l₂
      ∧ (∀ x ∈ config.window_rules, isProcessMatch x title class_name process_name = true →
          (pyOrStr x.contains []).length ≤ (pyOrStr r.contains []).length)
      ∧ (∀ x ∈ l₁, isProcessMatch x title class_name process_name = true →
          (pyOrStr x.contains []).length < (pyOrStr r.contains []).length) := by
  obtain ⟨y, hy_mem, hy⟩ : ∃ y ∈ config.window_rules,
      isProcessMatch y title class_name process_name = true := by
    have : 0 < config.window_rules.countP
        (fun r => isProcessMatch r title class_name process_name) := by omega
    simpa using List.countP_pos_iff.mp this
  have hy_proc : lower (pyOrStr y.match_ []) = "process".toList := by
    have := hy
    unfold isProcessMatch at this
    simp only [Bool.and_eq_true, beq_iff_eq] at this
    exact this.1
  have hy_match : matchesRule y title class_name process_name = true := by
    have := hy
    unfold isProcessMatch at this
    simp only [Bool.and_eq_true, beq_iff_eq] at this
    exact this.2
  rw [pick_rule_eq_firstBest]
  cases hF : firstBest title class_name process_name config.window_rules with
  | none =>
      exact absurd hy_match
        (by simp [firstBest_none title class_name process_name _ hF y hy_mem])
  | some r =>
      obtain ⟨hm, ⟨l₁, l₂, hdec, hearl⟩, hmax⟩ :=
        firstBest_some title class_name process_name _ r hF
      have hy_score : score_rule y = 3 := (score_rule_eq_three_iff y).mpr hy_proc
      have hr_score : score_rule r = 3 := by
        by_contra hne
        have hlt : score_rule r < 3 := lt_of_le_of_ne (score_rule_le_three r) hne
        exact hmax y hy_mem hy_match (Or.inl (by unfold ruleKey; dsimp; omega))
      have hr_proc : lower (pyOrStr r.match_ []) = "process".toList :=
        (score_rule_eq_three_iff r).mp hr_score
      refine ⟨r, l₁, l₂, rfl, ?_, hdec, ?_, ?_⟩
      · unfold isProcessMatch
        simp [hr_proc, hm]
      · intro x hx hxp
        have hx_proc : lower (pyOrStr x.match_ []) = "process".toList := by
          have := hxp
          unfold isProcessMatch at this
          simp only [Bool.and_eq_true, beq_iff_eq] at this
          exact this.1
        have hx_match : matchesRule x title class_name process_name = true := by
          have := hxp
          unfold isProcessMatch at this
          simp only [Bool.and_eq_true, beq_iff_eq] at this
          exact this.2
        have hx_score : score_rule x = 3 := (score_rule_eq_three_iff x).mpr hx_proc
        have := hmax x hx hx_match
        unfold keyGt ruleKey at this
        dsimp at this
        omega
      · intro x hx hxp
        have hx_proc : lower (pyOrStr x.match_ []) = "process".toList := by
          have := hxp
          unfold isProcessMatch at this
          simp only [Bool.and_eq_true, beq_iff_eq] at this
          exact this.1
        have hx_match : matchesRule x title class_name process_name = true := by
          have := hxp
          unfold isProcessMatch at this
          simp only [Bool.and_eq_true, beq_iff_eq] at this
          exact this.2
        have hx_score : score_rule x = 3 := (score_rule_eq_three_iff x).mpr hx_proc
        have := hearl x hx hx_match
        unfold keyGt ruleKey at this
        dsimp at this
        omega

/-- C3, witness: on the sample configuration and a `code.exe` window, two
Process rules match, and the theorem instantiates. -/
theorem C3_witness :
    ∃ r l₁ l₂, pick_rule sampleConfig ("t".toList) ("c".toList) ("code.exe".toList) = some r
      ∧ isProcessMatch r ("t".toList) ("c".toList) ("code.exe".toList) = true
      ∧ sampleConfig.window_rules = l₁ ++ r :: l₂
      ∧ (∀ x ∈ sampleConfig.window_rules,
          isProcessMatch x ("t".toList) ("c".toList) ("code.exe".toList) = true →
          (pyOrStr x.contains []).length ≤ (pyOrStr r.contains []).length)
      ∧ (∀ x ∈ l₁, isProcessMatch x ("t".toList) ("c".toList) ("code.exe".toList) = true →
          (pyOrStr x.contains []).length < (pyOrStr r.contains []).length) :=
  C3_theorem sampleConfig ("t".toList) ("c".toList) ("code.exe".toList) (by decide)

end AWB
